import Mathlib

/-!
Shallow embedding of the HTML minifier core (`html/html.go`) of the
`minify` repository.  Bytes are modelled as `Nat`, byte strings as
`List Nat`.  The external tokenizer is out of scope: the embedding takes
the typed token stream as input, exactly as the Go code receives it from
`html.NewTokenizer` through the `TokenBuffer`.  External collaborators
from other modules (`parse` helpers, the minifier registry) are either
modelled byte-for-byte from their documented tiny behaviour
(`parse.IsWhitespace`, `parse.Trim`, `parse.ToLower`,
`parse.EqualCaseInsensitive`, `parse.ReplaceMultiple`, `bytes.Replace`)
or taken as parameters of the context (`minify.Minifier` registry,
`parse.NormalizeContentType`).
-/

namespace Minify

/-- models `parse.IsWhitespace`: space, tab, newline, carriage return, form feed. -/
def isWS (c : Nat) : Bool :=
  c = 32 || c = 9 || c = 10 || c = 13 || c = 12

/-- models `parse.ToLower` on one byte: ASCII upper case to lower case. -/
def lowerByte (c : Nat) : Nat :=
  if 65 ≤ c ∧ c ≤ 90 then c + 32 else c

/-- models `parse.ToLower` on a byte string. -/
def toLowerBytes (l : List Nat) : List Nat :=
  l.map lowerByte

/-- models `parse.EqualCaseInsensitive`. -/
def eqCI (a b : List Nat) : Bool :=
  toLowerBytes a = toLowerBytes b

/-- models `parse.IsAllWhitespace`. -/
def isAllWS (l : List Nat) : Bool :=
  l.all isWS

/-- models `parse.Trim(b, parse.IsWhitespace)`: drop leading and trailing whitespace. -/
def trimWS (l : List Nat) : List Nat :=
  ((l.dropWhile isWS).reverse.dropWhile isWS).reverse

/-- models `parse.ReplaceMultiple(b, parse.IsWhitespace, ' ')`: every maximal
whitespace run becomes one space.  The boolean argument records whether the
previous byte belonged to a whitespace run. -/
def collapseWS : Bool → List Nat → List Nat
  | _, [] => []
  | inRun, c :: rest =>
    if isWS c then
      if inRun then collapseWS true rest else 32 :: collapseWS true rest
    else c :: collapseWS false rest

/-- models `parse.ReplaceMultiple(t.Data, parse.IsWhitespace, ' ')` as used at
the text branch of `Minify`. -/
def replaceMultipleWS (l : List Nat) : List Nat :=
  collapseWS false l

/-- models `bytes.Replace(l, pat, rep, -1)`: replace every occurrence of `pat`.
An empty pattern leaves the input unchanged (the Go callers always pass a
nonempty pattern). -/
def replaceAll (pat rep : List Nat) : List Nat → List Nat
  | [] => []
  | c :: rest =>
    if h : pat ≠ [] ∧ pat.isPrefixOf (c :: rest) then
      rep ++ replaceAll pat rep ((c :: rest).drop pat.length)
    else
      c :: replaceAll pat rep rest
termination_by l => l.length
decreasing_by
  · simp only [List.length_drop, List.length_cons]
    have hp : 1 ≤ pat.length := by
      cases pat with
      | nil => exact absurd rfl h.1
      | cons p ps => simp
    omega
  · simp

/-- helper turning a Lean string literal into its ASCII byte list. -/
def str (s : String) : List Nat :=
  s.toList.map Char.toNat

/-! ## Token model

`Token` mirrors the `Token` struct of the package (token type, hash of the
classified tag or attribute name, raw name or content bytes, raw attribute
value bytes).  `data = none` models the "nil slice" removed-flag the code uses
to elide an attribute inside the same pass.  `err` is only meaningful on
error tokens and distinguishes clean end of stream from a tokenizer failure. -/

/-- error values threaded through the engine.  `notExist` models
`minify.ErrNotExist`; `panicOob` marks the Go runtime out-of-bounds panic in
`escapeAttrVal`; `custom` stands for any other tokenizer, sink, or embedded
minifier error. -/
inductive Err where
  | eof
  | notExist
  | panicOob
  | custom : Nat → Err
  deriving DecidableEq, Repr

/-- token types of the external tokenizer (`html.TokenType`).  The switch in
`Minify` only reacts to the first seven; tag-close tokens fall through and
are dropped silently. -/
inductive TokenTy where
  | error
  | doctype
  | comment
  | text
  | startTag
  | endTag
  | attribute
  | startTagClose
  | startTagVoid
  deriving DecidableEq, Repr

/-- classified tag and attribute identifiers (`html.Hash`).  `zero` is the Go
zero value used for "no raw tag open".  Only the hashes the minifier core
inspects are listed; every other name classifies to `other`. -/
inductive Hash where
  | zero
  | a | body | button | colgroup | dd | dt | head | html | iframe | li | link
  | math | meta | object | optgroup | option | p | param | rb | rp | rt | rtc
  | script | source | style | svg | tbody | td | tfoot | th | thead | tr | div
  | form | input
  | accept | action | charset | classAttr | clear | codetype | colspan
  | content | dir | enctype | frameborder | href | httpEquiv | id | lang
  | language | media | method | name | rel | rowspan | scrolling | shape
  | span | src | title | value | valuetype | typeAttr
  | other
  deriving DecidableEq, Repr

/-- one typed token of the stream, as buffered by the `TokenBuffer`. -/
structure Token where
  tt : TokenTy
  hash : Hash := .zero
  data : Option (List Nat) := some []
  attrVal : List Nat := []
  err : Err := .eof
  deriving DecidableEq, Repr

/-- the name or content bytes of a token, with the nil slice reading as empty
(Go `len(nil) == 0`). -/
def Token.dataD (t : Token) : List Nat :=
  t.data.getD []

/-! ## Classification tables

Modelled from the spec: the static classification sets (`inlineTagMap`,
`blockTagMap`, `rawTagMap`, `booleanAttrMap`, `caseInsensitiveAttrMap`,
`urlAttrMap`) live in a source file of this repository that is not under
`src/`; the members follow section 3 and the glossary of the spec (inline =
elements not forcing a line break, block = elements forcing a visual break,
raw-text = script, style, iframe and the inline foreign-markup roots svg and
math, plus the standard boolean, case-insensitive and URL-bearing HTML
attributes the spec component design names). -/

/-- Modelled from the spec: the inline-element set. -/
def inlineTagMap (h : Hash) : Bool :=
  match h with
  | .a | .span => true
  | _ => false

/-- Modelled from the spec: the block-element set. -/
def blockTagMap (h : Hash) : Bool :=
  match h with
  | .div | .p | .li | .html | .head | .body => true
  | _ => false

/-- Modelled from the spec: the raw-text-element set (script, style, iframe,
inline foreign-markup roots). -/
def rawTagMap (h : Hash) : Bool :=
  match h with
  | .script | .style | .iframe | .svg | .math => true
  | _ => false

/-- placeholder token used as the default of list lookups that the code only
performs at indices known to be in bounds. -/
def dummyTok : Token :=
  { tt := .error }

/-- Modelled from the spec: the boolean-attribute set (none of the
attributes the claims touch is boolean). -/
def booleanAttrMap : Hash → Bool :=
  fun _ => false

/-- Modelled from the spec: the case-insensitive-attribute set. -/
def caseInsensitiveAttrMap (h : Hash) : Bool :=
  match h with
  | .charset | .clear | .codetype | .accept | .dir | .enctype | .frameborder
  | .httpEquiv | .lang | .language | .media | .method | .rel | .scrolling
  | .shape | .valuetype | .typeAttr => true
  | _ => false

/-- Modelled from the spec: the URL-bearing-attribute set. -/
def urlAttrMap (h : Hash) : Bool :=
  match h with
  | .action | .href | .src => true
  | _ => false

/-! ## Quoting engine (`isAtQuoteEntity`, `escapeAttrVal`) -/

/-- models `isAtQuoteEntity`: when the byte string starts with a character
reference denoting a quote, return the quote byte and the length of the
reference.  Decimal and hexadecimal forms may carry leading zero padding. -/
def isAtQuoteEntity (b : List Nat) : Option (Nat × Nat) :=
  if b.length < 5 then none
  else if b.getD 1 0 = 35 then -- '#'
    if b.getD 2 0 = 120 then -- 'x'
      let rest := (b.drop 3).dropWhile (· = 48)
      let i := b.length - rest.length
      match rest with
      | c0 :: c1 :: c2 :: _ =>
        if c0 = 50 ∧ c2 = 59 then -- '2' _ ';'
          if c1 = 50 then some (34, i + 3) -- &#x22;
          else if c1 = 55 then some (39, i + 3) -- &#x27;
          else none
        else none
      | _ => none
    else
      let rest := (b.drop 2).dropWhile (· = 48)
      let i := b.length - rest.length
      match rest with
      | c0 :: c1 :: c2 :: _ =>
        if c0 = 51 ∧ c2 = 59 then -- '3' _ ';'
          if c1 = 52 then some (34, i + 3) -- &#34;
          else if c1 = 57 then some (39, i + 3) -- &#39;
          else none
        else none
      | _ => none
  else if b.length ≥ 6 ∧ b.getD 5 0 = 59 then -- ';'
    if eqCI ((b.drop 1).take 4) (str "quot") then some (34, 6)
    else if eqCI ((b.drop 1).take 4) (str "apos") then some (39, 6)
    else none
  else none

/-- the counting loop at the top of `escapeAttrVal`: number of single quotes,
number of double quotes (literal characters and quote entities both count),
and whether the value may stay unquoted.  The recursion examines every suffix
of the value exactly like the Go `for i, c := range b` loop examining
`b[i:]`. -/
def escapeCount : List Nat → Nat × Nat × Bool
  | [] => (0, 0, true)
  | c :: rest =>
    let (s, d, u) := escapeCount rest
    if c = 38 then -- '&'
      match isAtQuoteEntity (c :: rest) with
      | some (34, _) => (s, d + 1, false)
      | some (_, _) => (s + 1, d, false)
      | none => (s, d, u)
    else if c = 34 then (s, d + 1, false) -- '"'
    else if c = 39 then (s + 1, d, false) -- single quote
    else if c = 96 ∨ c = 60 ∨ c = 61 ∨ c = 62 ∨ isWS c then (s, d, false)
    else (s, d, u)

/-- overlay `src` onto `t` starting at position `j`; `src` is assumed to fit. -/
def writeSeg (t : List Nat) (j : Nat) (src : List Nat) : List Nat :=
  t.take j ++ src ++ t.drop (j + src.length)

/-- models Go `copy(t[j:], src)`: copies `min (len t - j) (len src)` bytes and
returns the buffer together with the advanced write position. -/
def copyTrunc (t : List Nat) (j : Nat) (src : List Nat) : List Nat × Nat :=
  let c := min (t.length - j) src.length
  (writeSeg t j (src.take c), j + c)

/-- the rebuild loop of `escapeAttrVal` (lines with `start`, `j` and the
chunk copies).  `rem` is the remaining suffix `b[i:]`, `start` the begin of
the pending chunk, `t` the output buffer and `j` the write position.
Returns the final buffer, write position and chunk start. -/
def rebuildLoop (b : List Nat) (quote : Nat) (escQ : List Nat) :
    List Nat → Nat → Nat → List Nat → Nat → List Nat × Nat × Nat
  | [], _, start, t, j => (t, j, start)
  | c :: rem, i, start, t, j =>
    if c = 38 then
      match isAtQuoteEntity (c :: rem) with
      | some (eq, n) =>
        let (t1, j1) := copyTrunc t j ((b.drop start).take (i - start))
        let (t2, j2) :=
          if eq ≠ quote then copyTrunc t1 j1 [eq] else copyTrunc t1 j1 escQ
        rebuildLoop b quote escQ rem (i + 1) (i + n) t2 j2
      | none => rebuildLoop b quote escQ rem (i + 1) start t j
    else if c = quote then
      let (t1, j1) := copyTrunc t j ((b.drop start).take (i - start))
      let (t2, j2) := copyTrunc t1 j1 escQ
      rebuildLoop b quote escQ rem (i + 1) (i + 1) t2 j2
    else rebuildLoop b quote escQ rem (i + 1) start t j

/-- models `escapeAttrVal(buf, orig, b)`: the escaped attribute value without
surrounding processing.  `orig` are the original raw bytes (possibly still
wrapped in their source quotes), `b` the processed logical value.  The Go
code sizes the output buffer at `len(b)+2` bytes ("maximum size, not actual
size"); the final `t[j] = quote` write is index-checked, and `none` models
the Go runtime panic when `j` has reached the end of the buffer. -/
def escapeAttrVal (orig b : List Nat) : Option (List Nat) :=
  let (s, d, u) := escapeCount b
  if u then some b
  else if s = 0 ∧ d = 0 ∧ orig.length = b.length + 2 then some orig
  else
    let quote : Nat := if d > s then 39 else 34
    let escQ : List Nat := if d > s then str "&#39;" else str "&#34;"
    let t0 := (List.replicate (b.length + 2) 0).set 0 quote
    let (t1, j1, start1) := rebuildLoop b quote escQ b 0 0 t0 1
    let (t2, j2) := copyTrunc t1 j1 (b.drop start1)
    if j2 < t2.length then some ((t2.set j2 quote).take (j2 + 1)) else none

example : escapeAttrVal (str "utf-8") (str "utf-8") = some (str "utf-8") := by decide
example : escapeCount [97, 34, 98] = (0, 1, false) := by decide
example : escapeAttrVal [97, 34, 98] [97, 34, 98] = some [39, 97, 34, 98, 39] := by decide
example : escapeAttrVal [34, 34, 39] [34, 34, 39] = none := by decide
example : escapeAttrVal [39, 97, 32, 98, 39] [97, 32, 98] = some [39, 97, 32, 98, 39] := by
  decide
example : escapeAttrVal [34, 38, 113, 117, 111, 116, 59, 34] [38, 113, 117, 111, 116, 59] =
    some [39, 34, 39] := by decide

/-! ## External context and per-invocation state -/

/-- the external collaborators the core delegates to: the minifier registry
(`minify.Minifier`: a registered minifier returns the bytes it wrote to the
sink plus an optional error; an unregistered media type yields
`minify.ErrNotExist`) and `parse.NormalizeContentType`. -/
structure Ctx where
  registry : List Nat → Option (List Nat → List Nat × Option Err)
  normalizeContentType : List Nat → List Nat

/-- models `m.Minify(mediatype, w, r)`: look the media type up in the
registry; absence is the `notExist` error with nothing written. -/
def mMinify (ctx : Ctx) (mt content : List Nat) : List Nat × Option Err :=
  match ctx.registry mt with
  | none => ([], some .notExist)
  | some f => f content

/-- the per-invocation mutable context of `Minify` (`rawTag`,
`rawTagMediatype`, `precededBySpace`, `defaultScriptType`,
`defaultStyleType`, `defaultInlineStyleType`), with the initial values of
lines 30-35. -/
structure MState where
  rawTag : Hash := .zero
  rawTagMediatype : List Nat := []
  precededBySpace : Bool := true
  defaultScriptType : List Nat := str "text/javascript"
  defaultStyleType : List Nat := str "text/css"
  defaultInlineStyleType : List Nat := str "text/css;inline=1"
  deriving Repr

/-- the initial minification state. -/
def initState : MState := {}

/-! ## Attribute processing -/

/-- the surrounding-quote unwrap applied both in `getAttributes` and in the
attribute write loop: when the value is longer than one byte and starts with
a quote character, drop the first and last byte and trim interior
whitespace. -/
def unwrapQuotes (v : List Nat) : List Nat :=
  if v.length > 1 ∧ (v.getD 0 0 = 34 ∨ v.getD 0 0 = 39) then
    trimWS (v.drop 1).dropLast
  else v

/-- the index scan of `getAttributes`: position of the last attribute token
of the run carrying the given hash (the Go loop keeps overwriting
`attrIndexBuffer[j] = i + 1`, so a later duplicate wins). -/
def getAttrIdx (h : Hash) : List Token → Option Nat
  | [] => none
  | t :: rest =>
    match getAttrIdx h rest with
    | some i => some (i + 1)
    | none => if t.hash = h then some 0 else none

/-- apply a token transformation at one index of the run (the Go code
mutates the peeked token in the buffer in place). -/
def setIdx (i : Nat) (f : Token → Token) (l : List Token) : List Token :=
  match l[i]? with
  | none => l
  | some t => l.set i (f t)

/-- the value unwrap `getAttributes` performs on every found token. -/
def unwrapTok (t : Token) : Token :=
  { t with attrVal := unwrapQuotes t.attrVal }

/-- unwrap the token at a found index, if any. -/
def unwrapIdx (i? : Option Nat) (l : List Token) : List Token :=
  match i? with
  | none => l
  | some i => setIdx i unwrapTok l

/-- the interdependent rewrite pass for an `a` start tag: elide `name` when
byte-identical to `id`; unless `rel` equals `external`, strip an
`http:`/`https:` scheme from `href`. -/
def anchorRewrite (run : List Token) : List Token :=
  let iId := getAttrIdx .id run
  let iName := getAttrIdx .name run
  let iRel := getAttrIdx .rel run
  let iHref := getAttrIdx .href run
  let run1 := unwrapIdx iHref (unwrapIdx iRel (unwrapIdx iName (unwrapIdx iId run)))
  let run2 :=
    match iId, iName with
    | some ii, some inm =>
      if (run1.getD ii dummyTok).attrVal = (run1.getD inm dummyTok).attrVal then
        setIdx inm (fun t => { t with data := none }) run1
      else run1
    | _, _ => run1
  let relExternal :=
    match iRel with
    | some ir => eqCI (run2.getD ir dummyTok).attrVal (str "external")
    | none => false
  if relExternal then run2
  else
    match iHref with
    | some ih =>
      setIdx ih (fun t =>
        if t.attrVal.length > 5 ∧ eqCI (t.attrVal.take 4) (str "http") then
          if t.attrVal.getD 4 0 = 58 then { t with attrVal := t.attrVal.drop 5 }
          else if (t.attrVal.getD 4 0 = 115 ∨ t.attrVal.getD 4 0 = 83) ∧
              t.attrVal.getD 5 0 = 58 then
            { t with attrVal := t.attrVal.drop 6 }
          else t
        else t) run2
    | none => run2

/-- the interdependent rewrite pass for a `meta` start tag: content-type to
`charset` replacement, document default style/script type updates, and the
`keywords`/`viewport` content cleanups. -/
def metaRewrite (ctx : Ctx) (st : MState) (run : List Token) : MState × List Token :=
  let iCt := getAttrIdx .content run
  let iHe := getAttrIdx .httpEquiv run
  let iCh := getAttrIdx .charset run
  let iNm := getAttrIdx .name run
  let run1 := unwrapIdx iNm (unwrapIdx iCh (unwrapIdx iHe (unwrapIdx iCt run)))
  match iCt with
  | none => (st, run1)
  | some ic =>
    let stepHe : MState × List Token :=
      match iHe with
      | none => (st, run1)
      | some ihe =>
        let cv := ctx.normalizeContentType (run1.getD ic dummyTok).attrVal
        let runA := setIdx ic (fun t => { t with attrVal := cv }) run1
        let hev := (run1.getD ihe dummyTok).attrVal
        if iCh = none ∧ eqCI hev (str "content-type") ∧ cv = str "text/html;charset=utf-8" then
          (st,
           setIdx ic
             (fun t =>
               { t with data := some (str "charset"), hash := .charset, attrVal := str "utf-8" })
             (setIdx ihe (fun t => { t with data := none }) runA))
        else if eqCI hev (str "content-style-type") then
          ({ st with defaultStyleType := cv, defaultInlineStyleType := cv ++ str ";inline=1" },
           runA)
        else if eqCI hev (str "content-script-type") then
          ({ st with defaultScriptType := cv }, runA)
        else (st, runA)
    let (st2, run2) := stepHe
    match iNm with
    | none => (st2, run2)
    | some inm =>
      let nmv := (run2.getD inm dummyTok).attrVal
      if eqCI nmv (str "keywords") then
        (st2, setIdx ic (fun t => { t with attrVal := replaceAll (str ", ") (str ",") t.attrVal })
          run2)
      else if eqCI nmv (str "viewport") then
        (st2, setIdx ic (fun t => { t with attrVal := replaceAll (str " ") [] t.attrVal }) run2)
      else (st2, run2)

/-- the interdependent rewrite pass for a `script` start tag: elide `charset`
when `src` is present. -/
def scriptRewrite (run : List Token) : List Token :=
  let iSrc := getAttrIdx .src run
  let iCh := getAttrIdx .charset run
  let run1 := unwrapIdx iCh (unwrapIdx iSrc run)
  match iSrc, iCh with
  | some _, some ich => setIdx ich (fun t => { t with data := none }) run1
  | _, _ => run1

/-- dispatch of the interdependent rewrite pass on the tag hash. -/
def rewriteAttrs (ctx : Ctx) (st : MState) (tag : Hash) (run : List Token) :
    MState × List Token :=
  if tag = .a then (st, anchorRewrite run)
  else if tag = .meta then metaRewrite ctx st run
  else if tag = .script then (st, scriptRewrite run)
  else (st, run)

/-- result of emitting one attribute token: runtime panic inside
`escapeAttrVal`, attribute skipped, bare name, or name plus rendered value. -/
inductive EmitRes where
  | oob
  | skip
  | plain (name : List Nat)
  | withVal (name val : List Nat)
  deriving DecidableEq, Repr

/-- the attributes whose empty value is semantically equivalent to absence
(lines 287-297). -/
def emptyAttrElidable (tag : Hash) (t : Token) : Bool :=
  t.hash = .classAttr || t.hash = .dir || t.hash = .id || t.hash = .lang ||
  t.hash = .name || t.hash = .style || t.hash = .title ||
  (t.hash = .action && tag = .form) || (t.hash = .value && tag = .input) ||
  (decide (t.dataD.length > 2) && t.dataD.getD 0 0 = 111 && t.dataD.getD 1 0 = 110)

/-- the per-attribute-and-tag default value table (lines 310-326). -/
def defaultAttrElidable (tag : Hash) (h : Hash) (val : List Nat) : Bool :=
  (h = .typeAttr &&
    ((tag = .script && val = str "text/javascript") ||
     (tag = .style && val = str "text/css") ||
     (tag = .link && val = str "text/css") ||
     (tag = .input && val = str "text") ||
     (tag = .button && val = str "submit"))) ||
  (h = .language && tag = .script) ||
  (h = .method && val = str "get") ||
  (h = .enctype && val = str "application/x-www-form-urlencoded") ||
  (h = .colspan && val = str "1") ||
  (h = .rowspan && val = str "1") ||
  (h = .shape && val = str "rect") ||
  (h = .span && val = str "1") ||
  (h = .clear && val = str "none") ||
  (h = .frameborder && val = str "1") ||
  (h = .scrolling && val = str "auto") ||
  (h = .valuetype && val = str "data") ||
  (h = .media && tag = .style && val = str "all")

/-- the value normalization of the write loop (lines 283-304): unwrap the
surrounding quotes, lower-case values of case-insensitive attributes, and
normalize media-type values of the content-type-bearing attributes. -/
def attrNormVal (ctx : Ctx) (tag : Hash) (t : Token) : List Nat :=
  let val1 := unwrapQuotes t.attrVal
  if caseInsensitiveAttrMap t.hash then
    let lv := toLowerBytes val1
    if t.hash = .enctype ∨ t.hash = .codetype ∨ t.hash = .accept ∨
        (t.hash = .typeAttr ∧ (tag = .a ∨ tag = .link ∨ tag = .object ∨ tag = .param ∨
          tag = .script ∨ tag = .style ∨ tag = .source)) then
      ctx.normalizeContentType lv
    else lv
  else val1

/-- the per-value rewrites before quoting (lines 340-362): inline style
minification for `style`, the `javascript:` strip plus script minification
for event handlers, and the scheme strip for URL attributes outside
anchors. -/
def attrFinalVal (ctx : Ctx) (tag h : Hash) (st : MState) (nm val2 : List Nat) : List Nat :=
  if h = .style then
    match mMinify ctx st.defaultInlineStyleType val2 with
    | (o, none) => o
    | (_, some _) => val2
  else if nm.length > 2 ∧ nm.getD 0 0 = 111 ∧ nm.getD 1 0 = 110 then
    let v :=
      if val2.length ≥ 11 ∧ eqCI (val2.take 11) (str "javascript:") then val2.drop 11
      else val2
    match mMinify ctx st.defaultScriptType v with
    | (o, none) => o
    | (_, some _) => v
  else if tag ≠ .a ∧ urlAttrMap h then
    if val2.length > 5 ∧ eqCI (val2.take 4) (str "http") then
      if val2.getD 4 0 = 58 then val2.drop 5
      else if (val2.getD 4 0 = 115 ∨ val2.getD 4 0 = 83) ∧ val2.getD 5 0 = 58 then
        val2.drop 6
      else val2
    else val2
  else val2

/-- one step of the attribute write loop (lines 275-369): decide whether the
attribute is emitted and with which rendered value, recording the media-type
override of a raw-text opener along the way. -/
def emitAttrOne (ctx : Ctx) (tag : Hash) (st : MState) (t : Token) : MState × EmitRes :=
  match t.data with
  | none => (st, .skip)
  | some nm =>
    if unwrapQuotes t.attrVal = [] ∧ emptyAttrElidable tag t then (st, .skip)
    else
      let val2 := attrNormVal ctx tag t
      let st2 :=
        if st.rawTag ≠ .zero ∧ t.hash = .typeAttr then { st with rawTagMediatype := val2 }
        else st
      if defaultAttrElidable tag t.hash val2 then (st2, .skip)
      else if val2 = [] ∨ booleanAttrMap t.hash then (st2, .plain nm)
      else
        match escapeAttrVal t.attrVal (attrFinalVal ctx tag t.hash st nm val2) with
        | some v => (st2, .withVal nm v)
        | none => (st2, .oob)

/-- the attribute write loop over a rewritten run: the emitted
(name, optional value) pairs in order, the threaded state, and whether the
run aborted in the `escapeAttrVal` panic. -/
def emitAttrs (ctx : Ctx) (tag : Hash) : MState → List Token → MState × List (List Nat × Option (List Nat)) × Bool
  | st, [] => (st, [], false)
  | st, t :: rest =>
    match emitAttrOne ctx tag st t with
    | (st2, .oob) => (st2, [], true)
    | (st2, .skip) => emitAttrs ctx tag st2 rest
    | (st2, .plain nm) =>
      let (st3, ps, pan) := emitAttrs ctx tag st2 rest
      (st3, (nm, none) :: ps, pan)
    | (st2, .withVal nm v) =>
      let (st3, ps, pan) := emitAttrs ctx tag st2 rest
      (st3, (nm, some v) :: ps, pan)

/-- render the emitted pairs the way the write loop does: a space, the name,
and `=` plus the value when one is written. -/
def pairsBytes (ps : List (List Nat × Option (List Nat))) : List Nat :=
  (ps.map (fun p => 32 :: p.1 ++ (match p.2 with | none => [] | some v => 61 :: v))).flatten

/-! ## Whitespace, structural lookahead and the main loop -/

/-- the token the `TokenBuffer` yields when peeking: the buffered token, or
the end-of-stream error token once the source is exhausted. -/
def peekTok (ts : List Token) (i : Nat) : Token :=
  ts.getD i { tt := .error }

/-- the trailing-space lookahead scan (lines 121-141): trim at end of
stream, before a text token starting with whitespace, and before a
non-inline tag; keep the space before an inline start tag; scan past inline
end tags and any other token kind. -/
def trimScan : List Token → Bool
  | [] => true
  | n :: rest =>
    match n.tt with
    | .error => true
    | .text =>
      match n.dataD with
      | [] => false
      | c :: _ => isWS c
    | .startTag => !inlineTagMap n.hash
    | .endTag => if inlineTagMap n.hash then trimScan rest else true
    | _ => trimScan rest

/-- the `</p>` elision lookahead (lines 185-195): skip whitespace-only text,
then elide before end of stream, a non-anchor end tag, or a block start
tag. -/
def pElideScan : List Token → Bool
  | [] => true
  | n :: rest =>
    if n.tt = .text ∧ isAllWS n.dataD then pElideScan rest
    else
      decide (n.tt = .error) || (decide (n.tt = .endTag) && decide (n.hash ≠ .a)) ||
        (decide (n.tt = .startTag) && blockTagMap n.hash)

/-- the non-raw text branch (lines 108-150): collapse whitespace, suppress a
redundant leading space, decide the trailing space with the lookahead scan,
and set `precededBySpace`.  Returns the new state and the bytes written. -/
def textStep (st : MState) (raw : List Nat) (lookahead : List Token) : MState × List Nat :=
  let d0 := replaceMultipleWS raw
  if d0.length > 0 then
    let d1 := if st.precededBySpace ∧ d0.getD 0 0 = 32 then d0.drop 1 else d0
    if d1.length = 0 then ({ st with precededBySpace := true }, d1)
    else if d1.getLast? = some 32 then
      if trimScan lookahead then ({ st with precededBySpace := false }, d1.dropLast)
      else ({ st with precededBySpace := true }, d1)
    else ({ st with precededBySpace := false }, d1)
  else (st, [])

/-- the effective media type of the open raw-text element (lines 72-85):
iframe is always html, otherwise a recorded `type` attribute wins, otherwise
the per-document defaults and the fixed foreign-markup types. -/
def effectiveMediatype (st : MState) : List Nat :=
  if st.rawTag = .iframe then str "text/html"
  else if st.rawTagMediatype.length > 0 then st.rawTagMediatype
  else if st.rawTag = .script then st.defaultScriptType
  else if st.rawTag = .style then st.defaultStyleType
  else if st.rawTag = .svg then str "image/svg+xml"
  else if st.rawTag = .math then str "application/mathml+xml"
  else []

/-- the CDATA handling for embedded html (lines 87-95): the marker written
up front and the payload handed to the embedded minifier. -/
def cdataSplit (mt content : List Nat) : List Nat × List Nat :=
  if mt = str "text/html" then
    let tr := trimWS content
    if tr.length > 12 ∧ tr.take 9 = str "<![CDATA[" ∧ tr.drop (tr.length - 3) = str "]]>" then
      (str "<![CDATA[", tr.drop 9)
    else ([], content)
  else ([], content)

/-- dropping a satisfied prefix never lengthens a list (used for
termination of the main loop). -/
theorem dropWhileLenLe (p : Token → Bool) (l : List Token) :
    (l.dropWhile p).length ≤ l.length := by
  induction l with
  | nil => simp [List.dropWhile]
  | cons a l ih =>
    by_cases h : p a = true
    · simp only [List.dropWhile, h]
      exact Nat.le_succ_of_le ih
    · simp only [List.dropWhile, Bool.not_eq_true] at h
      simp [List.dropWhile, h]

mutual

/-- the main loop of `Minify` over the token stream: returns the bytes
written to the sink and the result (`none` models the `nil` return at clean
end of stream).  On the Go runtime panic inside `escapeAttrVal` the loop
stops with `panicOob`. -/
def minifyLoop (ctx : Ctx) : MState → List Token → List Nat × Option Err
  | _, [] => ([], none)
  | st, t :: ts =>
    match t.tt with
    | .error => if t.err = .eof then ([], none) else ([], some t.err)
    | .doctype =>
      let (o, e) := minifyLoop ctx st ts
      (str "<!doctype html>" ++ o, e)
    | .comment =>
      let c :=
        if (str "[if").isPrefixOf t.dataD then str "<!--" ++ t.dataD ++ str "-->"
        else if (str "--").isSuffixOf t.dataD then str "<!" ++ t.dataD ++ str ">"
        else []
      let (o, e) := minifyLoop ctx st ts
      (c ++ o, e)
    | .text =>
      if st.rawTag ≠ .zero then
        if st.rawTag = .style ∨ st.rawTag = .script ∨ st.rawTag = .iframe ∨
            st.rawTag = .svg ∨ st.rawTag = .math then
          let mt := effectiveMediatype st
          let (marker, payload) := cdataSplit mt t.dataD
          match mMinify ctx mt payload with
          | (mo, none) =>
            let (o, e) := minifyLoop ctx st ts
            (marker ++ mo ++ o, e)
          | (mo, some me) =>
            if me = .notExist then
              let (o, e) := minifyLoop ctx st ts
              (marker ++ mo ++ payload ++ o, e)
            else (marker ++ mo, some me)
        else
          let (o, e) := minifyLoop ctx st ts
          (t.dataD ++ o, e)
      else
        let (st2, d) := textStep st t.dataD ts
        let (o, e) := minifyLoop ctx st2 ts
        (d ++ o, e)
    | .startTag | .endTag =>
      let hasAttributes := t.tt = .startTag ∧ (peekTok ts 0).tt = .attribute
      let stz := { st with rawTag := Hash.zero }
      if ¬ inlineTagMap t.hash then
        let stp := { stz with precededBySpace := true }
        if t.tt = .startTag ∧ rawTagMap t.hash ∧ ¬ hasAttributes ∧
            (t.hash = .script ∨ t.hash = .style) ∧ (peekTok ts 1).tt = .endTag then
          minifyLoop ctx stp (ts.drop 2)
        else
          let st2 :=
            if t.tt = .startTag ∧ rawTagMap t.hash then
              { stp with rawTag := t.hash, rawTagMediatype := [] }
            else stp
          if ¬ hasAttributes ∧
              (t.hash = .html ∨ t.hash = .head ∨ t.hash = .body ∨ t.hash = .colgroup) then
            minifyLoop ctx st2 ts
          else if t.tt = .endTag ∧
              (t.hash = .thead ∨ t.hash = .tbody ∨ t.hash = .tfoot ∨ t.hash = .tr ∨
               t.hash = .th ∨ t.hash = .td ∨ t.hash = .optgroup ∨ t.hash = .option ∨
               t.hash = .dd ∨ t.hash = .dt ∨ t.hash = .li ∨ t.hash = .rb ∨ t.hash = .rt ∨
               t.hash = .rtc ∨ t.hash = .rp) then
            minifyLoop ctx st2 ts
          else if t.tt = .endTag ∧ t.hash = .p ∧ pElideScan ts then
            minifyLoop ctx st2 ts
          else
            writeTagStep ctx st2 t ts hasAttributes
      else
        writeTagStep ctx stz t ts hasAttributes
    | _ => minifyLoop ctx st ts
termination_by _ ts => 2 * ts.length
decreasing_by all_goals (simp_wf <;> omega)

/-- writing an emitted tag (lines 203-373): the opening bytes, the attribute
run processed by both passes, and the closing `>`.  With attributes the run
and the tag-close token after it are consumed from the stream; the written
attribute bytes follow from the emitted pairs.  The Go panic inside
`escapeAttrVal` surfaces as `panicOob`. -/
def writeTagStep (ctx : Ctx) (st : MState) (t : Token) (ts : List Token)
    (hasAttributes : Bool) : List Nat × Option Err :=
  let pre := (if t.tt = .endTag then str "</" else str "<") ++ t.dataD
  if hasAttributes then
    let run := ts.takeWhile (fun x => decide (x.tt = .attribute))
    let rest0 := ts.dropWhile (fun x => decide (x.tt = .attribute))
    let (stA, run2) := rewriteAttrs ctx st t.hash run
    let (stB, ps, pan) := emitAttrs ctx t.hash stA run2
    if pan then (pre ++ pairsBytes ps, some .panicOob)
    else
      let (o, e) := minifyLoop ctx stB (rest0.drop 1)
      (pre ++ pairsBytes ps ++ str ">" ++ o, e)
  else
    let (o, e) := minifyLoop ctx st ts
    (pre ++ str ">" ++ o, e)
termination_by 2 * ts.length + 1
decreasing_by
  all_goals simp_wf
  all_goals (have h1 := dropWhileLenLe (fun x => decide (x.tt = TokenTy.attribute)) ts; omega)

end

/-- `Minify`: run the loop from the initial state. -/
def Minify (ctx : Ctx) (tokens : List Token) : List Nat × Option Err :=
  minifyLoop ctx initState tokens

/-- a context with an empty minifier registry and an identity content-type
normalizer, used for concrete runs. -/
def ctx0 : Ctx :=
  { registry := fun _ => none, normalizeContentType := fun v => v }

example :
    Minify ctx0
      [{ tt := .startTag, hash := .iframe, data := some (str "iframe") },
       { tt := .startTagClose },
       { tt := .endTag, hash := .iframe, data := some (str "iframe") }] =
    (str "<iframe></iframe>", none) := by
  simp [Minify, minifyLoop, writeTagStep, initState, peekTok, Token.dataD, inlineTagMap,
    rawTagMap, str]

example :
    Minify ctx0
      [{ tt := .startTag, hash := .a, data := some (str "a") },
       { tt := .attribute, hash := .href, data := some (str "href"),
         attrVal := [34, 39, 120, 39, 34] },
       { tt := .startTagClose }] =
    (str "<a href=x>", none) := by
  simp [Minify, minifyLoop, writeTagStep, initState, peekTok, Token.dataD, inlineTagMap,
    rawTagMap, str]
  decide

/-! ## The reused attribute index buffer of `getAttributes` -/

/-- inner loop of the `getAttributes` index scan (html.go lines 393-397):
`for j, hash := range hashes`, overwriting slot `j` with the one-based
token index whenever the token's hash equals `hashes[j]`. -/
def updateSlots (h0 : Hash) (ip1 : Nat) : List Hash → List Nat → List Nat
  | [], buf => buf
  | _, [] => []
  | h :: hs, b :: bs => (if h0 = h then ip1 else b) :: updateSlots h0 ip1 hs bs

/-- outer scan loop of `getAttributes` (html.go lines 387-399): walks the
tokens from the head of the stream while they are attribute tokens,
recording for each requested hash the one-based index of its last
occurrence; a slot whose hash does not occur in the run is left exactly as
the previous call left it. -/
def scanRun (hashes : List Hash) : List Token → Nat → List Nat → List Nat
  | [], _, buf => buf
  | t :: rest, i, buf =>
    if t.tt = .attribute then
      scanRun hashes rest (i + 1) (updateSlots t.hash (i + 1) hashes buf)
    else buf

/-- fetch phase of `getAttributes` (html.go lines 400-410): a zero slot
yields nil; a positive slot `i` fetches the token `tb.Peek(i-1)` of the
current stream and unwraps its surrounding quotes in place. -/
def attrFetch (stream : List Token) (buf : List Nat) : List (Option Token) :=
  buf.map fun idx => if idx = 0 then none else some (unwrapTok (stream.getD (idx - 1) dummyTok))

/-- `getAttributes` (html.go lines 380-412) with the reused
`attrIndexBuffer` threaded explicitly: `arr` is the buffer's backing
array, its length standing for the Go slice capacity.  Lines 381-384
allocate a fresh zeroed array only when the capacity is too small; lines
385-386 then reslice the existing array without zeroing it, so slots the
scan does not overwrite keep stale indices from an earlier call.  Returns
the fetched per-hash tokens and the array as the next call will see it.
(`Minify` creates the buffer as `make([]int, 0, 4)`, a zeroed backing
array of capacity 4, html.go line 39.) -/
def getAttributesBuf (stream : List Token) (hashes : List Hash) (arr : List Nat) :
    List (Option Token) × List Nat :=
  let arr1 := if arr.length < hashes.length then List.replicate hashes.length 0 else arr
  let buf := scanRun hashes stream 0 (arr1.take hashes.length)
  (attrFetch stream buf, buf ++ arr1.drop hashes.length)

/-! ## Properties of the buffer primitives of the quoting engine -/

theorem copyTrunc_length (t : List Nat) (j : Nat) (src : List Nat) :
    (copyTrunc t j src).1.length = t.length := by
  simp only [copyTrunc, writeSeg, List.length_append, List.length_take, List.length_drop]
  omega

theorem copyTrunc_ge (t : List Nat) (j : Nat) (src : List Nat) :
    j ≤ (copyTrunc t j src).2 := by
  simp [copyTrunc]

theorem copyTrunc_head (t : List Nat) (j : Nat) (src : List Nat) (hj : 1 ≤ j) :
    (copyTrunc t j src).1.head? = t.head? := by
  cases t with
  | nil => simp [copyTrunc, writeSeg]
  | cons a t' =>
    obtain ⟨j', rfl⟩ : ∃ j', j = j' + 1 := ⟨j - 1, by omega⟩
    simp [copyTrunc, writeSeg]

theorem rebuildLoop_inv (b : List Nat) (q : Nat) (escQ : List Nat) (rem : List Nat) :
    ∀ (i start : Nat) (t : List Nat) (j : Nat), 1 ≤ j →
      (rebuildLoop b q escQ rem i start t j).1.head? = t.head? ∧
      1 ≤ (rebuildLoop b q escQ rem i start t j).2.1 ∧
      (rebuildLoop b q escQ rem i start t j).1.length = t.length := by
  induction rem with
  | nil =>
    intro i start t j hj
    simp [rebuildLoop, hj]
  | cons c rem ih =>
    intro i start t j hj
    by_cases h38 : c = 38
    · subst h38
      simp only [rebuildLoop, eq_self_iff_true, ite_true]
      cases hq : isAtQuoteEntity (38 :: rem) with
      | none => simpa [hq] using ih (i + 1) start t j hj
      | some en =>
        obtain ⟨en1, en2⟩ := en
        simp only [hq]
        set p1 := copyTrunc t j ((b.drop start).take (i - start)) with hp1
        have h1j : 1 ≤ p1.2 := le_trans hj (copyTrunc_ge t j _)
        have h1h : p1.1.head? = t.head? := copyTrunc_head t j _ hj
        have h1l : p1.1.length = t.length := copyTrunc_length t j _
        by_cases hne : en1 ≠ q
        · simp only [if_pos hne]
          set p2 := copyTrunc p1.1 p1.2 [en1] with hp2
          have h2j : 1 ≤ p2.2 := le_trans h1j (copyTrunc_ge p1.1 p1.2 _)
          obtain ⟨ha, hb, hc⟩ := ih (i + 1) (i + en2) p2.1 p2.2 h2j
          refine ⟨?_, hb, ?_⟩
          · rw [ha, hp2, copyTrunc_head _ _ _ h1j, h1h]
          · rw [hc, hp2, copyTrunc_length, h1l]
        · simp only [if_neg hne]
          set p2 := copyTrunc p1.1 p1.2 escQ with hp2
          have h2j : 1 ≤ p2.2 := le_trans h1j (copyTrunc_ge p1.1 p1.2 _)
          obtain ⟨ha, hb, hc⟩ := ih (i + 1) (i + en2) p2.1 p2.2 h2j
          refine ⟨?_, hb, ?_⟩
          · rw [ha, hp2, copyTrunc_head _ _ _ h1j, h1h]
          · rw [hc, hp2, copyTrunc_length, h1l]
    · by_cases hcq : c = q
      · subst hcq
        simp only [rebuildLoop, if_neg h38, eq_self_iff_true, ite_true]
        set p1 := copyTrunc t j ((b.drop start).take (i - start)) with hp1
        have h1j : 1 ≤ p1.2 := le_trans hj (copyTrunc_ge t j _)
        have h1h : p1.1.head? = t.head? := copyTrunc_head t j _ hj
        have h1l : p1.1.length = t.length := copyTrunc_length t j _
        set p2 := copyTrunc p1.1 p1.2 escQ with hp2
        have h2j : 1 ≤ p2.2 := le_trans h1j (copyTrunc_ge p1.1 p1.2 _)
        obtain ⟨ha, hb, hc⟩ := ih (i + 1) (i + 1) p2.1 p2.2 h2j
        refine ⟨?_, hb, ?_⟩
        · rw [ha, hp2, copyTrunc_head _ _ _ h1j, h1h]
        · rw [hc, hp2, copyTrunc_length, h1l]
      · simp only [rebuildLoop, if_neg h38, if_neg hcq]
        exact ih (i + 1) start t j hj

/-! ## Claim C9 -/

/-- C9: the claim states that `escapeAttrVal` always stays within the bounds
of the buffer it sizes at `len(processed value) + 2`, so that no
out-of-bounds write or index occurs.  The code violates this: on the value
consisting of two double quotes followed by one single quote the chosen
quote is the single quote, its five-byte escape entity does not fit, and
the final `t[j] = quote` write indexes one position past the end of the
buffer (a Go runtime panic, modelled as `none`). -/
theorem c9_escapeAttrVal_oob :
    escapeAttrVal [34, 34, 39] [34, 34, 39] = none := by decide

/-! ## Claim C5 -/

/-- C5: counterexample.  The claim states that whenever the value holds zero
literal quote characters and the original raw bytes are exactly two bytes
longer than the processed value, the original bytes are reused verbatim.
The value `&quot;` (no literal quote, one double-quote entity) with original
bytes `"&quot;"` satisfies exactly that, yet the engine does not return the
original: the entity counts as a double quote, so the engine re-wraps the
value in single quotes instead. -/
theorem c5_counterexample :
    (∀ c ∈ [38, 113, 117, 111, 116, 59], c ≠ 34 ∧ c ≠ 39) ∧
    (escapeCount [38, 113, 117, 111, 116, 59]).2.2 = false ∧
    ([34, 38, 113, 117, 111, 116, 59, 34] : List Nat).length =
      ([38, 113, 117, 111, 116, 59] : List Nat).length + 2 ∧
    escapeAttrVal [34, 38, 113, 117, 111, 116, 59, 34] [38, 113, 117, 111, 116, 59] =
      some [39, 34, 39] ∧
    ([39, 34, 39] : List Nat) ≠ [34, 38, 113, 117, 111, 116, 59, 34] := by decide

/-- C5 (amended): when the counted singles and doubles are both zero — that
is, zero quote characters counting literal quotes and decoded quote
entities alike — the value cannot stay unquoted, and the original bytes are
exactly two bytes longer than the processed value, `escapeAttrVal` returns
the original bytes verbatim. -/
theorem c5_reuse_orig (orig b : List Nat)
    (hc : escapeCount b = (0, 0, false))
    (hl : orig.length = b.length + 2) :
    escapeAttrVal orig b = some orig := by
  unfold escapeAttrVal
  rw [hc]
  simp [hl]

/-- C5 witness: the value `a b` with original bytes `"a b"`. -/
theorem c5_witness :
    escapeAttrVal [34, 97, 32, 98, 34] [97, 32, 98] = some [34, 97, 32, 98, 34] :=
  c5_reuse_orig [34, 97, 32, 98, 34] [97, 32, 98] (by decide) (by decide)

/-! ## Claim C3 -/

/-- C3: counterexample.  The claim states that every attribute value that
requires quoting is wrapped in double quotes when the double-quote count
does not exceed the single-quote count.  The value `a b` (zero quotes of
either kind, requires quoting because of the space) with original bytes
`'a b'` is returned as the original single-quoted bytes instead: the
original-reuse path fires before any wrapping choice is made. -/
theorem c3_counterexample :
    escapeCount [97, 32, 98] = (0, 0, false) ∧
    escapeAttrVal [39, 97, 32, 98, 39] [97, 32, 98] = some [39, 97, 32, 98, 39] ∧
    ([39, 97, 32, 98, 39] : List Nat).head? ≠ some 34 := by decide

/-- C3 (amended): when the engine reaches the wrapping stage (the value
requires quoting and the original-reuse path does not apply) and the
rebuild completes without the out-of-bounds panic, the output is wrapped in
a single quote exactly when the counted doubles strictly outnumber the
counted singles, and in a double quote otherwise. -/
theorem c3_quote_choice (orig b out : List Nat) (s d : Nat)
    (hc : escapeCount b = (s, d, false))
    (hr : ¬(s = 0 ∧ d = 0 ∧ orig.length = b.length + 2))
    (ho : escapeAttrVal orig b = some out) :
    out.head? = some (if d > s then 39 else 34) ∧
    out.getLast? = some (if d > s then 39 else 34) := by
  unfold escapeAttrVal at ho
  rw [hc] at ho
  simp only [Bool.false_eq_true, if_false, if_neg hr] at ho
  set q : Nat := if d > s then 39 else 34 with hq
  set escQ : List Nat := if d > s then str "&#39;" else str "&#34;" with hescQ
  set t0 : List Nat := (List.replicate (b.length + 2) 0).set 0 q with ht0
  have ht0h : t0.head? = some q := by
    rw [ht0]
    cases hb : b.length + 2 with
    | zero => omega
    | succ n => simp [List.replicate_succ]
  have ht0l : t0.length = b.length + 2 := by simp [ht0]
  obtain ⟨h1h, h1j, h1l⟩ := rebuildLoop_inv b q escQ b 0 0 t0 1 (by omega)
  set r := rebuildLoop b q escQ b 0 0 t0 1 with hr1
  set p2 := copyTrunc r.1 r.2.1 (b.drop r.2.2) with hp2
  have h2h : p2.1.head? = some q := by
    rw [hp2, copyTrunc_head _ _ _ h1j, h1h, ht0h]
  have h2j : 1 ≤ p2.2 := le_trans h1j (copyTrunc_ge _ _ _)
  have h2l : p2.1.length = b.length + 2 := by
    rw [hp2, copyTrunc_length, h1l, ht0l]
  by_cases hlt : p2.2 < p2.1.length
  · rw [if_pos hlt] at ho
    have hout : out = (p2.1.set p2.2 q).take (p2.2 + 1) := by
      exact ((Option.some.injEq _ _).mp ho.symm)
    subst hout
    constructor
    · rw [List.head?_eq_getElem?, List.getElem?_take_of_lt (by omega),
        List.getElem?_set_ne (by omega)]
      rw [← List.head?_eq_getElem?, h2h]
    · have hlen : ((p2.1.set p2.2 q).take (p2.2 + 1)).length = p2.2 + 1 := by
        simp only [List.length_take, List.length_set]
        omega
      rw [List.getLast?_eq_getElem?, hlen]
      simp only [Nat.add_sub_cancel]
      rw [List.getElem?_take_of_succ, List.getElem?_set_eq_of_lt q (by simpa using hlt)]
  · rw [if_neg hlt] at ho
    exact absurd ho (by simp)

/-- C3 witness: the value `a"b` (one double quote, no single quote) is
wrapped in single quotes. -/
theorem c3_witness :
    (escapeAttrVal [97, 34, 98] [97, 34, 98] = some [39, 97, 34, 98, 39]) ∧
    ([39, 97, 34, 98, 39] : List Nat).head? = some (if 1 > 0 then 39 else 34) ∧
    ([39, 97, 34, 98, 39] : List Nat).getLast? = some (if 1 > 0 then 39 else 34) := by
  refine ⟨by decide, ?_⟩
  have h := c3_quote_choice [97, 34, 98] [97, 34, 98] [39, 97, 34, 98, 39] 0 1
    (by decide) (by decide) (by decide)
  exact h

/-! ## Claim C4 -/

/-- C4: counterexample.  The claim states that a comment renders verbatim
wrapped in `<!--...-->` if and only if its content begins with `[if` or
ends with `--`.  A comment whose content is `x--` ends with `--`, yet the
code emits it wrapped as `<!x-->` (an open bracket, a bang, the content and
a closing bracket only) and not as `<!--x---->`. -/
theorem c4_counterexample :
    Minify ctx0 [{ tt := .comment, data := some (str "x--") }] = (str "<!x-->", none) ∧
    str "<!x-->" ≠ str "<!--" ++ str "x--" ++ str "-->" := by
  constructor
  · simp [Minify, minifyLoop, initState, Token.dataD, str] <;> decide
  · decide

/-- C4 (amended): a comment whose content begins with `[if` renders wrapped
in `<!--...-->`; a comment whose content does not begin with `[if` but ends
with `--` renders wrapped in `<!...>`; every other comment contributes no
output bytes.  In all three cases minification continues unchanged. -/
theorem c4_comment_render (ctx : Ctx) (st : MState) (d : List Nat) (rest : List Token) :
    ((str "[if").isPrefixOf d = true →
      minifyLoop ctx st ({ tt := .comment, data := some d } :: rest) =
        (str "<!--" ++ d ++ str "-->" ++ (minifyLoop ctx st rest).1,
         (minifyLoop ctx st rest).2)) ∧
    ((str "[if").isPrefixOf d = false → (str "--").isSuffixOf d = true →
      minifyLoop ctx st ({ tt := .comment, data := some d } :: rest) =
        (str "<!" ++ d ++ str ">" ++ (minifyLoop ctx st rest).1,
         (minifyLoop ctx st rest).2)) ∧
    ((str "[if").isPrefixOf d = false → (str "--").isSuffixOf d = false →
      minifyLoop ctx st ({ tt := .comment, data := some d } :: rest) =
        minifyLoop ctx st rest) := by
  refine ⟨fun h1 => ?_, fun h1 h2 => ?_, fun h1 h2 => ?_⟩
  · simp [minifyLoop, Token.dataD, h1]
  · simp [minifyLoop, Token.dataD, h1, h2]
  · simp [minifyLoop, Token.dataD, h1, h2]

/-- C4 witness: one comment of each of the three kinds. -/
theorem c4_witness :
    Minify ctx0 [{ tt := .comment, data := some (str "[if x") }] =
      (str "<!--[if x-->", none) ∧
    Minify ctx0 [{ tt := .comment, data := some (str "y--") }] = (str "<!y-->", none) ∧
    Minify ctx0 [{ tt := .comment, data := some (str "plain") }] = ([], none) := by
  refine ⟨?_, ?_, ?_⟩
  · have h := (c4_comment_render ctx0 initState (str "[if x") []).1 (by decide)
    rw [Minify, h]
    simp [minifyLoop] <;> decide
  · have h := (c4_comment_render ctx0 initState (str "y--") []).2.1 (by decide) (by decide)
    rw [Minify, h]
    simp [minifyLoop] <;> decide
  · have h := (c4_comment_render ctx0 initState (str "plain") []).2.2 (by decide) (by decide)
    rw [Minify, h]
    simp [minifyLoop]

/-! ## Claim C1 -/

/-- C1: counterexample.  The claim states that every raw-text opener without
attributes that is immediately followed by its matching closer is elided
together with the closer — naming script, style, iframe and the inline
foreign-markup roots.  An empty iframe is not elided: the code only applies
the pair elision to script and style, so `<iframe></iframe>` is emitted. -/
theorem c1_counterexample :
    Minify ctx0
      [{ tt := .startTag, hash := .iframe, data := some (str "iframe") },
       { tt := .startTagClose },
       { tt := .endTag, hash := .iframe, data := some (str "iframe") }] =
      (str "<iframe></iframe>", none) ∧
    str "<iframe></iframe>" ≠ ([] : List Nat) := by
  constructor
  · simp [Minify, minifyLoop, writeTagStep, initState, peekTok, Token.dataD, inlineTagMap,
      rawTagMap, str]
  · decide

/-- C1 (amended): for a `script` or `style` opening tag carrying no
attributes whose matching closing tag follows immediately (only the
tag-close token of the opener in between, with no intervening text token),
both tokens are consumed and nothing is emitted for the pair; minification
continues behind the pair with `precededBySpace` set and no raw tag open.
Openers of iframe or of the foreign-markup roots are not elided this way. -/
theorem c1_empty_raw_elision (ctx : Ctx) (st : MState) (h : Hash) (d1 d2 : List Nat)
    (tc : Token) (rest : List Token)
    (hh : h = .script ∨ h = .style) (htc : tc.tt = .startTagClose) :
    minifyLoop ctx st
      ({ tt := .startTag, hash := h, data := some d1 } :: tc ::
        { tt := .endTag, hash := h, data := some d2 } :: rest) =
    minifyLoop ctx { st with rawTag := .zero, precededBySpace := true } rest := by
  rcases hh with hh | hh <;> subst hh <;>
    simp [minifyLoop, peekTok, inlineTagMap, rawTagMap, htc, Token.dataD]

/-- C1 witness: an empty script pair produces no output at all. -/
theorem c1_witness :
    Minify ctx0
      [{ tt := .startTag, hash := .script, data := some (str "script") },
       { tt := .startTagClose },
       { tt := .endTag, hash := .script, data := some (str "script") }] = ([], none) := by
  rw [Minify, c1_empty_raw_elision ctx0 initState .script (str "script") (str "script")
    { tt := .startTagClose } [] (Or.inl rfl) rfl]
  simp [minifyLoop]

/-! ## Claim C7 -/

/-- C7: for a text token inside an open raw-text element, if the registry
has no minifier for the effective media type the payload is written to the
sink unmodified (after the CDATA marker, when one was recognized) and
minification continues with the rest of the stream; an error other than the
missing-minifier error from a registered minifier aborts the whole
operation, emits nothing further, and is returned to the caller. -/
theorem c7_raw_dispatch (ctx : Ctx) (st : MState) (c : List Nat) (rest : List Token)
    (hraw : st.rawTag = .style ∨ st.rawTag = .script ∨ st.rawTag = .iframe ∨
      st.rawTag = .svg ∨ st.rawTag = .math) :
    (ctx.registry (effectiveMediatype st) = none →
      minifyLoop ctx st ({ tt := .text, data := some c } :: rest) =
        ((cdataSplit (effectiveMediatype st) c).1 ++ (cdataSplit (effectiveMediatype st) c).2 ++
          (minifyLoop ctx st rest).1,
         (minifyLoop ctx st rest).2)) ∧
    (∀ f fo e, ctx.registry (effectiveMediatype st) = some f →
      f (cdataSplit (effectiveMediatype st) c).2 = (fo, some e) → e ≠ .notExist →
      minifyLoop ctx st ({ tt := .text, data := some c } :: rest) =
        ((cdataSplit (effectiveMediatype st) c).1 ++ fo, some e)) := by
  have hz : st.rawTag ≠ .zero := by
    rcases hraw with h | h | h | h | h <;> simp [h]
  rcases hsp : cdataSplit (effectiveMediatype st) c with ⟨mk, pl⟩
  constructor
  · intro hreg
    simp [minifyLoop, Token.dataD, hz, hraw, hsp, mMinify, hreg]
  · intro f fo e hf hfe hne
    simp [minifyLoop, Token.dataD, hz, hraw, hsp, mMinify, hf, hfe, hne]

/-- C7 witness: an unregistered media type passes the content through; a
registered failing minifier aborts with its error. -/
theorem c7_witness :
    minifyLoop ctx0 { rawTag := .script, rawTagMediatype := str "x/y" }
      [{ tt := .text, data := some (str "q()") }] = (str "q()", none) ∧
    minifyLoop
      { registry := fun _ => some (fun _ => ([], some (.custom 7))),
        normalizeContentType := fun v => v }
      { rawTag := .script, rawTagMediatype := str "x/y" }
      [{ tt := .text, data := some (str "q()") },
       { tt := .text, data := some (str "r()") }] = ([], some (.custom 7)) := by
  constructor
  · have h := (c7_raw_dispatch ctx0 { rawTag := .script, rawTagMediatype := str "x/y" }
      (str "q()") [] (Or.inr (Or.inl rfl))).1 rfl
    rw [h]
    simp [minifyLoop, cdataSplit, effectiveMediatype, trimWS, str] <;> decide
  · have h := (c7_raw_dispatch
      { registry := fun _ => some (fun _ => ([], some (.custom 7))),
        normalizeContentType := fun v => v }
      { rawTag := .script, rawTagMediatype := str "x/y" }
      (str "q()") [{ tt := .text, data := some (str "r()") }]
      (Or.inr (Or.inl rfl))).2 (fun _ => ([], some (.custom 7))) [] (.custom 7) rfl rfl
      (by decide)
    rw [h]
    simp [cdataSplit, effectiveMediatype, trimWS, str] <;> decide

/-! ## Claim C10 -/

/-- C10: the claim states that surrounding-quote unwrapping is applied
exactly once across the interdependent-rewrite pass and the emission pass,
so that a value whose once-unwrapped content itself begins with a quote
character keeps that content.  The code violates this: for an anchor with
`href` raw value `"'x'"`, `getAttributes` unwraps the value to `'x'` and
the emission pass unwraps it a second time to `x`, so the emitted logical
value is `x` and not the once-unwrapped `'x'`. -/
theorem c10_double_unwrap :
    Minify ctx0
      [{ tt := .startTag, hash := .a, data := some (str "a") },
       { tt := .attribute, hash := .href, data := some (str "href"),
         attrVal := [34, 39, 120, 39, 34] },
       { tt := .startTagClose }] = (str "<a href=x>", none) ∧
    unwrapQuotes [34, 39, 120, 39, 34] = [39, 120, 39] ∧
    (emitAttrs ctx0 .a initState
        (anchorRewrite
          [{ tt := .attribute, hash := .href, data := some (str "href"),
             attrVal := [34, 39, 120, 39, 34] }])).2.1 =
      [(str "href", some [120])] ∧
    ([120] : List Nat) ≠ [39, 120, 39] := by
  refine ⟨?_, by decide, by decide, by decide⟩
  simp [Minify, minifyLoop, writeTagStep, initState, peekTok, Token.dataD, inlineTagMap,
    rawTagMap, str]
  decide

/-! ## Claim C2 -/

/-- the whitespace collapse in run mode never starts its output with a
space. -/
theorem collapse_head_true (l : List Nat) : (collapseWS true l).head? ≠ some 32 := by
  induction l with
  | nil => simp [collapseWS]
  | cons c rest ih =>
    by_cases hw : isWS c = true
    · simpa [collapseWS, hw] using ih
    · have hc : c ≠ 32 := fun h => hw (by simp [h, isWS])
      simp [collapseWS, hw, hc]

/-- the whitespace collapse never produces two adjacent spaces. -/
theorem collapse_chain (r : Bool) (l : List Nat) :
    List.Chain' (fun a b => a = 32 → b ≠ 32) (collapseWS r l) := by
  induction l generalizing r with
  | nil => simp [collapseWS]
  | cons c rest ih =>
    by_cases hw : isWS c = true
    · cases r with
      | true => simpa [collapseWS, hw] using ih true
      | false =>
        simp only [collapseWS, hw, ite_true, Bool.false_eq_true, if_false]
        rw [List.chain'_cons']
        exact ⟨fun b hb h32 => fun hb32 => collapse_head_true rest (hb ▸ congrArg _ hb32),
          ih true⟩
    · have hc : c ≠ 32 := fun h => hw (by simp [h, isWS])
      simp only [collapseWS, hw, Bool.false_eq_true, if_false]
      rw [List.chain'_cons']
      exact ⟨fun b _ h32 => absurd h32 hc, ih false⟩

/-- dropping the final element of an adjacent-space-free list ending in a
space yields a list not ending in a space. -/
theorem last_dropLast (l : List Nat)
    (hc : List.Chain' (fun a b => a = 32 → b ≠ 32) l)
    (hl : l.getLast? = some 32) : l.dropLast.getLast? ≠ some 32 := by
  induction l with
  | nil => simp at hl
  | cons a l ih =>
    cases l with
    | nil => simp
    | cons b l2 =>
      cases l2 with
      | nil =>
        have hb : b = 32 := by simpa using hl
        have hab := (List.chain'_cons.mp hc).1
        simp only [List.dropLast, List.getLast?_singleton, ne_eq, Option.some.injEq]
        intro ha
        exact (hab ha) hb
      | cons cc l3 =>
        have hch := (List.chain'_cons.mp hc).2
        have h2 : (b :: cc :: l3).getLast? = some 32 := by
          simpa [List.getLast?_cons_cons] using hl
        have hrec := ih hch h2
        simpa [List.dropLast, List.getLast?_cons_cons] using hrec

/-- C2: counterexample.  The claim states that after the trailing-space
decision `precededBySpace` is true exactly when the emitted text logically
ends in a space boundary, including the case where the trailing space was
trimmed.  On the text `a ` followed by the text ` b`, the lookahead trims
the trailing space, and the code then sets `precededBySpace` to false, not
true — so the next text token keeps its leading space rather than having it
suppressed. -/
theorem c2_counterexample :
    (textStep { precededBySpace := false } [97, 32]
        [{ tt := .text, data := some [32, 98] }]).2 = [97] ∧
    (textStep { precededBySpace := false } [97, 32]
        [{ tt := .text, data := some [32, 98] }]).1.precededBySpace = false := by
  constructor <;> decide

/-- C2 (amended): for a text token whose collapsed content ends in a space
and whose content after leading-space suppression is nonempty, the
`precededBySpace` flag set by the trailing-space decision is true exactly
when the emitted text actually ends in a space character: it is true when
the space is kept, and false when the lookahead trims it — after a trim the
next leading space is preserved, not suppressed. -/
theorem c2_flag (st : MState) (raw : List Nat) (la : List Token)
    (h1 : (replaceMultipleWS raw).getLast? = some 32)
    (h2 : (if st.precededBySpace ∧ (replaceMultipleWS raw).getD 0 0 = 32 then
        (replaceMultipleWS raw).drop 1 else replaceMultipleWS raw) ≠ []) :
    ((textStep st raw la).1.precededBySpace = true ↔
      (textStep st raw la).2.getLast? = some 32) := by
  unfold textStep
  set c := replaceMultipleWS raw with hcdef
  have hchain : List.Chain' (fun a b => a = 32 → b ≠ 32) c := by
    rw [hcdef]
    exact collapse_chain false raw
  have hcne : c ≠ [] := by
    intro h
    rw [h] at h1
    simp at h1
  have hlen : c.length > 0 := List.length_pos.mpr hcne
  clear_value c
  rw [if_pos hlen]
  by_cases hp : st.precededBySpace ∧ c.getD 0 0 = 32
  · rw [if_pos hp] at h2 ⊢
    simp only [List.drop_one] at h2 ⊢
    have hd1last : c.tail.getLast? = some 32 := by
      cases c with
      | nil => exact absurd rfl hcne
      | cons x xs =>
        cases xs with
        | nil => simp at h2
        | cons y ys => simpa [List.getLast?_cons_cons] using h1
    have hd1chain : List.Chain' (fun a b => a = 32 → b ≠ 32) c.tail := by
      cases c with
      | nil => simp
      | cons x xs => simpa using (List.chain'_cons'.mp hchain).2
    have hd1len : ¬c.tail.length = 0 := by
      intro h
      exact h2 (List.length_eq_zero.mp h)
    rw [if_neg hd1len, if_pos hd1last]
    by_cases ht : trimScan la = true
    · rw [if_pos ht]
      simp only [Bool.false_eq_true, false_iff]
      exact last_dropLast _ hd1chain hd1last
    · rw [if_neg ht]
      simp [hd1last]
  · rw [if_neg hp] at h2 ⊢
    have hd1len : ¬c.length = 0 := by
      intro h
      exact h2 (List.length_eq_zero.mp h)
    rw [if_neg hd1len, if_pos h1]
    by_cases ht : trimScan la = true
    · rw [if_pos ht]
      simp only [Bool.false_eq_true, false_iff]
      exact last_dropLast _ hchain h1
    · rw [if_neg ht]
      simp [h1]

/-- C2 witness: text `a ` at end of stream is trimmed; the flag is false and
the emitted text `a` does not end in a space. -/
theorem c2_witness :
    ((textStep { precededBySpace := false } [97, 32] []).1.precededBySpace = true ↔
      (textStep { precededBySpace := false } [97, 32] []).2.getLast? = some 32) :=
  c2_flag { precededBySpace := false } [97, 32] [] (by decide) (by decide)

/-! ## Claim C6 -/

/-- C6: the claim states that every meta start tag whose http-equiv equals
`content-type`, whose content normalizes to `text/html;charset=utf-8` and
that has no charset attribute is emitted with a single `charset=utf-8`
attribute and neither http-equiv nor content.  The program violates this:
`getAttributes` reslices `attrIndexBuffer` without zeroing it, so the slot
the anchor call uses for `rel` (slot 2 of `Id, Name, Rel, Href`) keeps its
stale index when the meta call reuses the same slot for `charset` (slot 2
of `Content, Http_Equiv, Charset, Name`).  After processing
`<a rel=r href=h>`, the meta run of
`<meta http-equiv=Content-Type content="text/html; charset=utf-8">` —
which contains no attribute with the charset hash (first conjunct) —
fetches a phantom charset entry: the stale index 1 points at the meta's
own http-equiv token (second conjunct), so the `charset == nil` test of
html.go line 243 fails and the content-type-to-charset rewrite is skipped;
http-equiv and content are emitted unchanged.  On a fresh zeroed buffer
the same meta call returns nil for charset (third conjunct), which is what
the rewrite requires: the divergence is purely the stale cross-call
state. -/
theorem c6_stale_charset :
    (∀ t ∈ [({ tt := .attribute, hash := .httpEquiv, data := some (str "http-equiv"), attrVal := str "Content-Type" } : Token),
             { tt := .attribute, hash := .content, data := some (str "content"), attrVal := [34] ++ str "text/html; charset=utf-8" ++ [34] },
             { tt := .startTagClose }], t.hash ≠ Hash.charset) ∧
    ((getAttributesBuf
        [{ tt := .attribute, hash := .httpEquiv, data := some (str "http-equiv"), attrVal := str "Content-Type" },
         { tt := .attribute, hash := .content, data := some (str "content"), attrVal := [34] ++ str "text/html; charset=utf-8" ++ [34] },
         { tt := .startTagClose }]
        [Hash.content, Hash.httpEquiv, Hash.charset, Hash.name]
        (getAttributesBuf
          [{ tt := .attribute, hash := .rel, data := some (str "rel"), attrVal := str "r" },
           { tt := .attribute, hash := .href, data := some (str "href"), attrVal := str "h" },
           { tt := .startTagClose }]
          [Hash.id, Hash.name, Hash.rel, Hash.href]
          (List.replicate 4 0)).2).1.getD 2 none =
      some (unwrapTok { tt := .attribute, hash := .httpEquiv, data := some (str "http-equiv"), attrVal := str "Content-Type" })) ∧
    ((getAttributesBuf
        [{ tt := .attribute, hash := .httpEquiv, data := some (str "http-equiv"), attrVal := str "Content-Type" },
         { tt := .attribute, hash := .content, data := some (str "content"), attrVal := [34] ++ str "text/html; charset=utf-8" ++ [34] },
         { tt := .startTagClose }]
        [Hash.content, Hash.httpEquiv, Hash.charset, Hash.name]
        (List.replicate 4 0)).1.getD 2 none = none) := by
  refine ⟨by decide, by decide, by decide⟩

end Minify
